import Mathlib

/-!
Shallow embedding of the MedCQ quiz-attempt engine.

The definitions below are translated from the TypeScript sources:
  * `frontend/src/types/domain.ts` — the data model (`QuestionType`,
    `AnswerOption`, `Question`, `Quiz`, `QuizAttempt`, `QuizResult`);
  * `frontend/src/services/repositories/supabaseQuizAttemptRepository.ts` —
    `calculateResults` (the scoring engine) and `submitQuizAttempt`
    (the submission path with its status and expiry checks);
  * `frontend/src/services/quizAttemptService.ts` — `shuffleArray`
    (Fisher–Yates) and the randomization applied by `startQuizAttempt`;
  * `frontend/src/components/ui/Input/Input.tsx` — the `isPassed`
    computation of the `QuizResults` component.

Numbers are modelled with `ℚ` (the scoring arithmetic divides 1.0 by the
number of correct options and compares against 0.5), timestamps with `Nat`,
and the nondeterminism of `Math.random()` with an explicit stream of choices.
-/

namespace MedCQ

/-- `QuestionType` enum from `types/domain.ts`. -/
inductive QuestionType where
  | single_choice
  | multiple_choice
  | true_false
  | matching
deriving DecidableEq

/-- `AnswerOption` from `types/domain.ts` (fields the engine reads). -/
structure AnswerOption where
  id : String
  text : String
  isCorrect : Bool
deriving DecidableEq

/-- `Question` from `types/domain.ts` (fields the engine reads). -/
structure Question where
  id : String
  text : String
  type : QuestionType
  options : List AnswerOption
deriving DecidableEq

/-- `Quiz` from `types/domain.ts` (fields the engine reads).
`timeLimit` is in minutes, `passScore` a percentage. -/
structure Quiz where
  id : String
  title : String
  timeLimit : Option Nat
  randomizeQuestions : Bool
  randomizeOptions : Bool
  passScore : Option ℚ
  questions : List Question
deriving DecidableEq

/-- A submitted answer value: the TypeScript side is the union
`string | string[]` in `Record<string, string | string[]>`. -/
abbrev AnswerValue : Type := String ⊕ List String

/-- The submitted-answer map `Record<string, string | string[]>`,
modelled as an association list keyed by question id. -/
abbrev Answers : Type := List (String × AnswerValue)

/-- `let userAnswer = answers[question.id] || []` followed by
`if (typeof userAnswer === 'string') userAnswer = [userAnswer]`:
a missing entry gives `[]`; a string value gives a singleton array,
except that the empty string is falsy in JavaScript, so `'' || []`
already yields `[]`. -/
def toUserAnswer : Option AnswerValue → List String
  | none => []
  | some (Sum.inl s) => if s = "" then [] else [s]
  | some (Sum.inr l) => l

/-- `question.options.filter(opt => opt.isCorrect).map(opt => opt.id)`. -/
def correctOptionIds (q : Question) : List String :=
  (q.options.filter fun o => o.isCorrect).map fun o => o.id

/-- `Math.max` on two rationals (computable form of `max`). -/
def mathMax (a b : ℚ) : ℚ := if a ≤ b then b else a

/-- The raw multiple-choice points of `calculateResults`:
`pointsPerOption * (correctSelections - incorrectSelections)` where
`pointsPerOption = pointsPossible / correctAnswers.length` with
`pointsPossible = 1.0`. -/
def rawPoints (q : Question) (userAnswer : List String) : ℚ :=
  (1 / ((correctOptionIds q).length : ℚ)) *
    (((userAnswer.filter fun a => decide (a ∈ correctOptionIds q)).length : ℚ) -
      ((userAnswer.filter fun a => decide (a ∉ correctOptionIds q)).length : ℚ))

/-- The per-question branch of `calculateResults`: returns
`(pointsEarned, isCorrect)` for one question given the (already
normalized) submitted option ids. -/
def scoreQuestion (q : Question) (userAnswer : List String) : ℚ × Bool :=
  let correctAnswers := correctOptionIds q
  match q.type with
  | QuestionType.single_choice | QuestionType.true_false =>
      match userAnswer with
      | [a] => if a ∈ correctAnswers then (1, true) else (0, false)
      | _ => (0, false)
  | QuestionType.multiple_choice =>
      if correctAnswers.length > 0 then
        let pointsEarned := mathMax 0 (rawPoints q userAnswer)
        (pointsEarned, decide (pointsEarned ≥ 1 / 2))
      else (0, false)
  | QuestionType.matching => (0, false)

/-- One entry of the `questionResults` array built by `calculateResults`. -/
structure QuestionResult where
  questionId : String
  isCorrect : Bool
  pointsEarned : ℚ
  pointsPossible : ℚ
  selectedOptionIds : List String
  correctOptionIds : List String
deriving DecidableEq

/-- The record pushed onto `questionResults` for one question. -/
def questionResult (answers : Answers) (q : Question) : QuestionResult :=
  let userAnswer := toUserAnswer (answers.lookup q.id)
  let r := scoreQuestion q userAnswer
  { questionId := q.id
    isCorrect := r.2
    pointsEarned := r.1
    pointsPossible := 1
    selectedOptionIds := userAnswer
    correctOptionIds := correctOptionIds q }

/-- The value returned by `calculateResults`. -/
structure ScoreSummary where
  questionResults : List QuestionResult
  pointsEarned : ℚ
  pointsPossible : ℚ
deriving DecidableEq

/-- `SupabaseQuizAttemptRepository.calculateResults`: one pass over the
questions, accumulating `totalPointsEarned` and `totalPointsPossible`. -/
def calculateResults (questions : List Question) (answers : Answers) :
    ScoreSummary :=
  let qrs := questions.map (questionResult answers)
  { questionResults := qrs
    pointsEarned := (qrs.map fun r => r.pointsEarned).sum
    pointsPossible := (qrs.map fun r => r.pointsPossible).sum }

/-- `const scorePercentage = pointsPossible > 0 ?
(pointsEarned / pointsPossible) * 100 : 0`. -/
def scorePercentageOf (pointsEarned pointsPossible : ℚ) : ℚ :=
  if pointsPossible > 0 then pointsEarned / pointsPossible * 100 else 0

/-- `const passed = quiz.passScore !== undefined ?
scorePercentage >= quiz.passScore : false`. -/
def passedOf (passScore : Option ℚ) (scorePercentage : ℚ) : Bool :=
  match passScore with
  | some p => decide (scorePercentage ≥ p)
  | none => false

/-- Attempt status column of the `quiz_attempts` table. -/
inductive AttemptStatus where
  | in_progress
  | completed
  | expired
deriving DecidableEq

/-- The attempt row read and written by `submitQuizAttempt`
(fields the submission path touches). Timestamps are `Nat`. -/
structure Attempt where
  id : String
  quizId : String
  userId : String
  startedAt : Nat
  expiresAt : Option Nat
  completedAt : Option Nat
  status : AttemptStatus
deriving DecidableEq

/-- The errors thrown by `submitQuizAttempt` before any scoring happens:
`invalidState` is `'This quiz attempt has already been completed or
expired'`, `deadlineExceeded` is `'This quiz attempt has expired'`. -/
inductive SubmitError where
  | invalidState
  | deadlineExceeded
deriving DecidableEq

/-- `QuizResult` from `types/domain.ts` (fields `submitQuizAttempt`
fills in). `questionResults` is the `questionId → isCorrect` record. -/
structure QuizResult where
  attemptId : String
  quizId : String
  userId : String
  score : ℚ
  correctCount : Nat
  totalCount : Nat
  timeTakenSeconds : Nat
  passed : Bool
  questionResults : List (String × Bool)
deriving DecidableEq

/-- `new Date() > new Date(attemptData.expires_at)` when an expiry
timestamp exists. -/
def deadlinePassed (expiresAt : Option Nat) (now : Nat) : Bool :=
  match expiresAt with
  | some e => decide (e < now)
  | none => false

/-- `SupabaseQuizAttemptRepository.submitQuizAttempt`, with the stored
attempt row made explicit: the result pairs the attempt row as it is
left in the database with either the returned `QuizResult` or the error
thrown.  Mirrors the source order: (1) status check, throwing
`invalidState` without touching the row; (2) expiry check, which first
updates the row to `status = 'expired'` and then throws; (3) scoring via
`calculateResults`, score percentage, pass flag, and the update to
`status = 'completed'` with `completed_at = now`. -/
def submitQuizAttempt (attempt : Attempt) (quiz : Quiz) (answers : Answers)
    (now : Nat) (timeTakenSeconds : Nat) :
    Attempt × Except SubmitError QuizResult :=
  if attempt.status ≠ AttemptStatus.in_progress then
    (attempt, Except.error SubmitError.invalidState)
  else if deadlinePassed attempt.expiresAt now then
    ({ attempt with status := AttemptStatus.expired },
      Except.error SubmitError.deadlineExceeded)
  else
    let summary := calculateResults quiz.questions answers
    let scorePercentage := scorePercentageOf summary.pointsEarned summary.pointsPossible
    let passed := passedOf quiz.passScore scorePercentage
    let correctCount := (summary.questionResults.filter fun r => r.isCorrect).length
    ({ attempt with status := AttemptStatus.completed, completedAt := some now },
      Except.ok
        { attemptId := attempt.id
          quizId := attempt.quizId
          userId := attempt.userId
          score := scorePercentage
          correctCount := correctCount
          totalCount := quiz.questions.length
          timeTakenSeconds := timeTakenSeconds
          passed := passed
          questionResults :=
            summary.questionResults.map fun r => (r.questionId, r.isCorrect) })

/-- The `isPassed` memo of the `QuizResults` component in `Input.tsx`:
`if (quiz.passScore) return result.score >= quiz.passScore; return
result.score >= 70;` — note `quiz.passScore` is a JavaScript truthiness
test, so both an absent and a zero pass score fall through to the
hardcoded 70 default. -/
def quizResultsIsPassed (passScore : Option ℚ) (score : ℚ) : Bool :=
  match passScore with
  | some p => if p ≠ 0 then decide (score ≥ p) else decide (score ≥ 70)
  | none => decide (score ≥ 70)

/-- One swap step `[newArray[i], newArray[j]] = [newArray[j], newArray[i]]`
of `shuffleArray`; leaves the list unchanged when an index is out of
range (which never happens in the loop). -/
def listSwap {α : Type} (l : List α) (i j : Nat) : List α :=
  if h : i < l.length ∧ j < l.length then
    (l.set i (l.get ⟨j, h.2⟩)).set j (l.get ⟨i, h.1⟩)
  else l

/-- The loop of `shuffleArray`: `for (let i = n - 1; i > 0; i--)` with
`j = Math.floor(Math.random() * (i + 1))`, an arbitrary index in
`[0, i]`.  The random draws are modelled by the stream `rand`, clamped
into range exactly as `Math.floor(Math.random() * (i + 1)) ≤ i`. -/
def fisherYatesLoop {α : Type} (rand : Nat → Nat) : Nat → List α → List α
  | 0, l => l
  | i + 1, l => fisherYatesLoop rand i (listSwap l (i + 1) (min (rand (i + 1)) (i + 1)))

/-- `quizAttemptService.shuffleArray`, parameterized by the stream of
random draws. -/
def shuffleArray {α : Type} (rand : Nat → Nat) (l : List α) : List α :=
  fisherYatesLoop rand (l.length - 1) l

/-- The randomization block of `quizAttemptService.startQuizAttempt`:
shuffle the question order if `randomizeQuestions`, then shuffle each
question's options if `randomizeOptions`.  Each `shuffleArray` call in
the source draws fresh randomness; here the question-order call uses
`qrand` and the call for the options of the question at position `i`
uses `orand i`. -/
def applyRandomization (qrand : Nat → Nat) (orand : Nat → Nat → Nat)
    (quiz : Quiz) : Quiz :=
  let qs1 := if quiz.randomizeQuestions then shuffleArray qrand quiz.questions
             else quiz.questions
  let qs2 := if quiz.randomizeOptions then
      qs1.enum.map fun p => { p.2 with options := shuffleArray (orand p.1) p.2.options }
    else qs1
  { quiz with questions := qs2 }

/-- The value `startQuizAttempt` returns to the client:
`{ attemptId, quiz, startedAt, timeLimit: quiz.timeLimit * 60 }` where
`quiz` is the full quiz object after randomization. -/
structure StartQuizAttemptResponse where
  attemptId : String
  quiz : Quiz
  startedAt : Nat
  timeLimit : Option Nat
deriving DecidableEq

/-- `quizAttemptService.startQuizAttempt`, restricted to the value it
returns (the attempt-row insertion is independent of the quiz content). -/
def startQuizAttemptView (attemptId : String) (startedAt : Nat)
    (qrand : Nat → Nat) (orand : Nat → Nat → Nat) (quiz : Quiz) :
    StartQuizAttemptResponse :=
  { attemptId := attemptId
    quiz := applyRandomization qrand orand quiz
    startedAt := startedAt
    timeLimit := quiz.timeLimit.map fun m => m * 60 }

/-- `q'` is `q` with its options possibly reordered: identity, text and
type are unchanged and the option records (each carrying its `isCorrect`
flag) are a permutation. -/
def QuestionReshuffled (q' q : Question) : Prop :=
  q'.id = q.id ∧ q'.text = q.text ∧ q'.type = q.type ∧
    List.Perm q'.options q.options

/-- The grading data of one `QuestionResult` (everything except the
order in which the correct option ids happen to be listed). -/
def gradeTriple (r : QuestionResult) : String × Bool × ℚ × ℚ × List String :=
  (r.questionId, r.isCorrect, r.pointsEarned, r.pointsPossible, r.selectedOptionIds)

/-! ### Concrete sample data used by witnesses and counterexamples -/

/-- A correct option. -/
def sampleOptA : AnswerOption := { id := "a", text := "Alpha", isCorrect := true }

/-- An incorrect option. -/
def sampleOptB : AnswerOption := { id := "b", text := "Beta", isCorrect := false }

/-- A second correct option. -/
def sampleOptC : AnswerOption := { id := "c", text := "Gamma", isCorrect := true }

/-- A multiple-choice question with correct set `{a, c}`. -/
def sampleMC : Question :=
  { id := "q1", text := "pick", type := QuestionType.multiple_choice
    options := [sampleOptA, sampleOptB, sampleOptC] }

/-- A single-choice question with unique correct option `a`. -/
def sampleSC : Question :=
  { id := "q2", text := "choose", type := QuestionType.single_choice
    options := [sampleOptA, sampleOptB] }

/-- A matching question (no scoring rule in the engine). -/
def sampleMatching : Question :=
  { id := "q3", text := "match", type := QuestionType.matching
    options := [sampleOptA, sampleOptB] }

/-- A multiple-choice question with unique correct option `a`,
used to demonstrate duplicate-submission scoring. -/
def sampleMCone : Question :=
  { id := "q4", text := "pick one", type := QuestionType.multiple_choice
    options := [sampleOptA, sampleOptB] }

/-- A quiz holding the sample questions, without randomization. -/
def sampleQuiz : Quiz :=
  { id := "z1", title := "Sample", timeLimit := some 1
    randomizeQuestions := false, randomizeOptions := false
    passScore := some 50, questions := [sampleMC, sampleSC] }

/-- The sample quiz with both randomization flags switched on. -/
def sampleQuizRand : Quiz :=
  { sampleQuiz with
    randomizeQuestions := true
    randomizeOptions := true }

/-- A quiz containing a matching question next to `sampleMCone`. -/
def sampleQuizMatching : Quiz :=
  { id := "z2", title := "With matching", timeLimit := none
    randomizeQuestions := false, randomizeOptions := false
    passScore := none, questions := [sampleMatching, sampleMCone] }

/-- An in-progress attempt at the sample quiz with a deadline at 60. -/
def sampleAttempt : Attempt :=
  { id := "at1", quizId := "z1", userId := "u1", startedAt := 0
    expiresAt := some 60, completedAt := none
    status := AttemptStatus.in_progress }

/-- The sample attempt after completion. -/
def sampleCompletedAttempt : Attempt :=
  { sampleAttempt with status := AttemptStatus.completed }

/-- A single-choice question whose two options carry the opposite
`isCorrect` flags from `sampleSC` (same ids, texts and type). -/
def flippedSC : Question :=
  { sampleSC with options :=
      [{ sampleOptA with isCorrect := false }, { sampleOptB with isCorrect := true }] }

/-- A quiz without randomization holding `sampleSC`. -/
def sampleQuizKeyA : Quiz :=
  { id := "z3", title := "Key", timeLimit := none
    randomizeQuestions := false, randomizeOptions := false
    passScore := none, questions := [sampleSC] }

/-- The same quiz with the answer key flipped: it differs from
`sampleQuizKeyA` only in which option is marked correct. -/
def sampleQuizKeyB : Quiz :=
  { sampleQuizKeyA with questions := [flippedSC] }

/-! ### Permutation facts about the Fisher–Yates shuffle -/

/-- Moving the element at index `j` to the front while writing `a` into
its slot is a permutation of putting `a` at the front. -/
theorem get_cons_set_perm {α : Type} :
    ∀ (t : List α) (j : Nat) (h : j < t.length) (a : α),
      List.Perm (t.get ⟨j, h⟩ :: t.set j a) (a :: t)
  | b :: s, 0, _, a => List.Perm.swap a b s
  | b :: s, j + 1, h, a => by
      have ih := get_cons_set_perm s j (Nat.lt_of_succ_lt_succ h) a
      have step1 : List.Perm (s.get ⟨j, Nat.lt_of_succ_lt_succ h⟩ :: b :: s.set j a)
          (b :: s.get ⟨j, Nat.lt_of_succ_lt_succ h⟩ :: s.set j a) :=
        List.Perm.swap b (s.get ⟨j, Nat.lt_of_succ_lt_succ h⟩) (s.set j a)
      have step2 : List.Perm (b :: s.get ⟨j, Nat.lt_of_succ_lt_succ h⟩ :: s.set j a)
          (b :: a :: s) := ih.cons b
      exact (step1.trans step2).trans (List.Perm.swap a b s)

/-- Writing `l[j]` into slot `i` and `l[i]` into slot `j` permutes `l`. -/
theorem set_set_swap_perm {α : Type} :
    ∀ (l : List α) (i j : Nat) (hi : i < l.length) (hj : j < l.length),
      List.Perm ((l.set i (l.get ⟨j, hj⟩)).set j (l.get ⟨i, hi⟩)) l
  | a :: t, 0, 0, _, _ => List.Perm.refl (a :: t)
  | a :: t, 0, j + 1, _, hj =>
      get_cons_set_perm t j (Nat.lt_of_succ_lt_succ hj) a
  | a :: t, i + 1, 0, hi, _ =>
      get_cons_set_perm t i (Nat.lt_of_succ_lt_succ hi) a
  | a :: t, i + 1, j + 1, hi, hj =>
      List.Perm.cons a
        (set_set_swap_perm t i j (Nat.lt_of_succ_lt_succ hi) (Nat.lt_of_succ_lt_succ hj))

/-- One swap step of the shuffle permutes the list. -/
theorem listSwap_perm {α : Type} (l : List α) (i j : Nat) :
    List.Perm (listSwap l i j) l := by
  unfold listSwap
  split
  · next h => exact set_set_swap_perm l i j h.1 h.2
  · exact List.Perm.refl l

/-- The whole Fisher–Yates loop permutes the list. -/
theorem fisherYatesLoop_perm {α : Type} (rand : Nat → Nat) :
    ∀ (n : Nat) (l : List α), List.Perm (fisherYatesLoop rand n l) l
  | 0, l => List.Perm.refl l
  | n + 1, l =>
      (fisherYatesLoop_perm rand n _).trans
        (listSwap_perm l (n + 1) (min (rand (n + 1)) (n + 1)))

/-- `shuffleArray` returns a permutation of its input, for every stream
of random draws. -/
theorem shuffleArray_perm {α : Type} (rand : Nat → Nat) (l : List α) :
    List.Perm (shuffleArray rand l) l :=
  fisherYatesLoop_perm rand (l.length - 1) l

/-! ### Scoring is invariant under option reshuffling -/

theorem questionReshuffled_refl (q : Question) : QuestionReshuffled q q :=
  ⟨rfl, rfl, rfl, List.Perm.refl _⟩

/-- Reordering the options permutes the list of correct option ids. -/
theorem correctOptionIds_perm {q' q : Question} (h : QuestionReshuffled q' q) :
    List.Perm (correctOptionIds q') (correctOptionIds q) := by
  unfold correctOptionIds
  exact List.Perm.map _ (List.Perm.filter _ h.2.2.2)

/-- The raw multiple-choice points only depend on the options through
membership in, and the number of, the correct option ids, so they are
unchanged by an option reshuffle. -/
theorem rawPoints_congr {q' q : Question} (h : QuestionReshuffled q' q)
    (ua : List String) : rawPoints q' ua = rawPoints q ua := by
  have hperm := correctOptionIds_perm h
  have hiff : ∀ a : String, a ∈ correctOptionIds q' ↔ a ∈ correctOptionIds q :=
    fun _ => hperm.mem_iff
  unfold rawPoints
  simp only [hperm.length_eq]
  have h1 : (ua.filter fun a => decide (a ∈ correctOptionIds q')) =
      ua.filter fun a => decide (a ∈ correctOptionIds q) :=
    List.filter_congr fun a _ => decide_eq_decide.mpr (hiff a)
  have h2 : (ua.filter fun a => decide (a ∉ correctOptionIds q')) =
      ua.filter fun a => decide (a ∉ correctOptionIds q) :=
    List.filter_congr fun a _ => decide_eq_decide.mpr (not_congr (hiff a))
  rw [h1, h2]

/-- Per-question scoring is unchanged by an option reshuffle. -/
theorem scoreQuestion_congr {q' q : Question} (h : QuestionReshuffled q' q)
    (ua : List String) : scoreQuestion q' ua = scoreQuestion q ua := by
  have hperm := correctOptionIds_perm h
  have hiff : ∀ a : String, a ∈ correctOptionIds q' ↔ a ∈ correctOptionIds q :=
    fun _ => hperm.mem_iff
  unfold scoreQuestion
  rw [h.2.2.1]
  cases q.type with
  | single_choice =>
      cases ua with
      | nil => rfl
      | cons a t =>
          cases t with
          | nil => exact if_congr (hiff a) rfl rfl
          | cons b s => rfl
  | true_false =>
      cases ua with
      | nil => rfl
      | cons a t =>
          cases t with
          | nil => exact if_congr (hiff a) rfl rfl
          | cons b s => rfl
  | multiple_choice =>
      simp only [hperm.length_eq, rawPoints_congr h ua]
  | matching => rfl

/-- An option reshuffle leaves the grading data of a question's result
unchanged. -/
theorem gradeTriple_questionResult_congr {q' q : Question}
    (h : QuestionReshuffled q' q) (answers : Answers) :
    gradeTriple (questionResult answers q') = gradeTriple (questionResult answers q) := by
  unfold questionResult gradeTriple
  simp only [h.1, scoreQuestion_congr h]

/-- `calculateResults` gives pointwise-equal grading data on two
question lists related by option reshuffles. -/
theorem calculateResults_reshuffle (answers : Answers) :
    ∀ {l m : List Question}, List.Forall₂ QuestionReshuffled l m →
      ((calculateResults l answers).questionResults.map gradeTriple =
        (calculateResults m answers).questionResults.map gradeTriple) ∧
      (calculateResults l answers).pointsEarned =
        (calculateResults m answers).pointsEarned ∧
      (calculateResults l answers).pointsPossible =
        (calculateResults m answers).pointsPossible
  | _, _, List.Forall₂.nil => ⟨rfl, rfl, rfl⟩
  | q' :: l', q :: m', List.Forall₂.cons hqq htail => by
      obtain ⟨ih1, ih2, ih3⟩ := calculateResults_reshuffle answers htail
      have hg := gradeTriple_questionResult_congr hqq answers
      have hpe : (questionResult answers q').pointsEarned =
          (questionResult answers q).pointsEarned :=
        congrArg (fun t => t.2.2.1) hg
      have hpp : (questionResult answers q').pointsPossible =
          (questionResult answers q).pointsPossible :=
        congrArg (fun t => t.2.2.2.1) hg
      refine ⟨?_, ?_, ?_⟩
      · simp only [calculateResults, List.map_cons] at ih1 ⊢
        rw [hg, ih1]
      · simp only [calculateResults, List.map_cons, List.sum_cons] at ih2 ⊢
        rw [hpe, ih2]
      · simp only [calculateResults, List.map_cons, List.sum_cons] at ih3 ⊢
        rw [hpp, ih3]

/-- `calculateResults` on a permuted question list: the per-question
results are permuted accordingly and the totals agree. -/
theorem calculateResults_perm (answers : Answers) {l m : List Question}
    (h : List.Perm l m) :
    List.Perm ((calculateResults l answers).questionResults)
        ((calculateResults m answers).questionResults) ∧
      (calculateResults l answers).pointsEarned =
        (calculateResults m answers).pointsEarned ∧
      (calculateResults l answers).pointsPossible =
        (calculateResults m answers).pointsPossible := by
  have hq : List.Perm (l.map (questionResult answers)) (m.map (questionResult answers)) :=
    h.map _
  refine ⟨hq, ?_, ?_⟩
  · exact List.Perm.sum_eq (hq.map fun r => r.pointsEarned)
  · exact List.Perm.sum_eq (hq.map fun r => r.pointsPossible)

/-- If `Forall₂ R` relates two lists, every member of the left one is
related to some member of the right one. -/
theorem forall₂_exists_right {α β : Type} {R : α → β → Prop} :
    ∀ {l : List α} {m : List β}, List.Forall₂ R l m →
      ∀ x ∈ l, ∃ y ∈ m, R x y
  | _, _, List.Forall₂.nil, x, hx => absurd hx (List.not_mem_nil x)
  | _, _, List.Forall₂.cons hab htail, x, hx => by
      rcases List.mem_cons.mp hx with hx | hx
      · exact ⟨_, List.mem_cons_self _ _, hx ▸ hab⟩
      · obtain ⟨y, hy, hxy⟩ := forall₂_exists_right htail x hx
        exact ⟨y, List.mem_cons_of_mem _ hy, hxy⟩

/-- `Forall₂ QuestionReshuffled` preserves the list of question ids. -/
theorem forall₂_map_id_eq :
    ∀ {l m : List Question}, List.Forall₂ QuestionReshuffled l m →
      (l.map fun q => q.id) = m.map fun q => q.id
  | _, _, List.Forall₂.nil => rfl
  | _ :: _, _ :: _, List.Forall₂.cons hqq htail => by
      simp only [List.map_cons, hqq.1, forall₂_map_id_eq htail]

/-- The option-shuffling pass of `startQuizAttempt` relates each
produced question to the question it came from. -/
theorem enum_option_shuffle_forall₂ (orand : Nat → Nat → Nat) :
    ∀ (l : List Question) (n : Nat),
      List.Forall₂ QuestionReshuffled
        ((List.enumFrom n l).map fun p =>
          { p.2 with options := shuffleArray (orand p.1) p.2.options }) l
  | [], _ => List.Forall₂.nil
  | q :: t, n =>
      List.Forall₂.cons
        ⟨rfl, rfl, rfl, shuffleArray_perm (orand n) q.options⟩
        (enum_option_shuffle_forall₂ orand t (n + 1))

/-- `applyRandomization` factors as an option reshuffle of a
permutation of the original questions, in each of its four
configuration branches. -/
theorem applyRandomization_spec (qrand : Nat → Nat) (orand : Nat → Nat → Nat)
    (quiz : Quiz) :
    ∃ mid : List Question,
      List.Forall₂ QuestionReshuffled
        (applyRandomization qrand orand quiz).questions mid ∧
      List.Perm mid quiz.questions := by
  unfold applyRandomization
  have hqs1 : List.Perm
      (if quiz.randomizeQuestions then shuffleArray qrand quiz.questions
        else quiz.questions) quiz.questions := by
    split
    · exact shuffleArray_perm qrand quiz.questions
    · exact List.Perm.refl _
  refine ⟨if quiz.randomizeQuestions then shuffleArray qrand quiz.questions
    else quiz.questions, ?_, hqs1⟩
  simp only
  split
  · exact enum_option_shuffle_forall₂ orand _ 0
  · exact List.forall₂_same.mpr fun q _ => questionReshuffled_refl q

/-! ### C9 -/

/-- Claim C9: for every quiz and every shuffle outcome, the shuffle is a
permutation — the multiset of question ids is preserved, each shuffled
question keeps its id with its option records (ids with their
`isCorrect` flags) merely permuted, and scoring any fixed answer map
against the shuffled questions yields the same per-question grading
data (as a multiset) and the same point totals as against the original
questions. -/
theorem shuffle_permutation_scoring_invariant (qrand : Nat → Nat)
    (orand : Nat → Nat → Nat) (quiz : Quiz) (answers : Answers) :
    List.Perm ((applyRandomization qrand orand quiz).questions.map fun q => q.id)
      (quiz.questions.map fun q => q.id) ∧
    (∀ q' ∈ (applyRandomization qrand orand quiz).questions,
      ∃ q ∈ quiz.questions, q'.id = q.id ∧ List.Perm q'.options q.options) ∧
    List.Perm
      ((calculateResults (applyRandomization qrand orand quiz).questions
        answers).questionResults.map gradeTriple)
      ((calculateResults quiz.questions answers).questionResults.map gradeTriple) ∧
    (calculateResults (applyRandomization qrand orand quiz).questions
        answers).pointsEarned =
      (calculateResults quiz.questions answers).pointsEarned ∧
    (calculateResults (applyRandomization qrand orand quiz).questions
        answers).pointsPossible =
      (calculateResults quiz.questions answers).pointsPossible := by
  obtain ⟨mid, hf, hp⟩ := applyRandomization_spec qrand orand quiz
  obtain ⟨hg, hpe, hpp⟩ := calculateResults_reshuffle answers hf
  obtain ⟨hg', hpe', hpp'⟩ := calculateResults_perm answers hp
  refine ⟨?_, ?_, ?_, hpe.trans hpe', hpp.trans hpp'⟩
  · have hmap := hp.map fun q => q.id
    rwa [← forall₂_map_id_eq hf] at hmap
  · intro q' hq'
    obtain ⟨q, hqmid, hR⟩ := forall₂_exists_right hf q' hq'
    exact ⟨q, hp.subset hqmid, hR.1, hR.2.2.2⟩
  · rw [hg]
    exact hg'.map gradeTriple

/-- Witness for C9 at a concrete quiz, answer map and random stream:
with both randomization flags on, the shuffled sample quiz's question
ids permute the original ids and the earned points are unchanged. -/
theorem shuffle_permutation_scoring_invariant_witness :
    List.Perm ((applyRandomization (fun _ => 0) (fun _ _ => 0)
        sampleQuizRand).questions.map fun q => q.id)
      (sampleQuizRand.questions.map fun q => q.id) ∧
    (calculateResults (applyRandomization (fun _ => 0) (fun _ _ => 0)
        sampleQuizRand).questions
        [(("q2" : String), Sum.inl ("a" : String))]).pointsEarned =
      (calculateResults sampleQuizRand.questions
        [(("q2" : String), Sum.inl ("a" : String))]).pointsEarned := by
  have h := shuffle_permutation_scoring_invariant (fun _ => 0) (fun _ _ => 0)
    sampleQuizRand [(("q2" : String), Sum.inl ("a" : String))]
  exact ⟨h.1, h.2.2.2.1⟩

/-! ### C1 -/

/-- `Math.max` agrees with the order-theoretic `max` on `ℚ`. -/
theorem mathMax_eq_max (a b : ℚ) : mathMax a b = max a b := by
  unfold mathMax
  split
  · next h => rw [max_eq_right h]
  · next h => rw [max_eq_left (le_of_not_le h)]

/-- Claim C1: for every multiple-choice question whose correct option
set C is non-empty and every duplicate-free set S of submitted option
ids, the scoring function awards `max 0 ((1/|C|) * (|S ∩ C| - |S \ C|))`
points and marks the question correct exactly when that value is at
least 1/2. -/
theorem multiple_choice_partial_credit (q : Question) (S : List String)
    (hty : q.type = QuestionType.multiple_choice)
    (hC : correctOptionIds q ≠ [])
    (hCd : (correctOptionIds q).Nodup)
    (hS : S.Nodup) :
    (scoreQuestion q S).1 =
      max 0 ((1 / (((correctOptionIds q).toFinset.card : ℚ))) *
        (((S.toFinset ∩ (correctOptionIds q).toFinset).card : ℚ) -
          ((S.toFinset \ (correctOptionIds q).toFinset).card : ℚ))) ∧
    ((scoreQuestion q S).2 = true ↔ (scoreQuestion q S).1 ≥ 1 / 2) := by
  have hlen : (correctOptionIds q).length > 0 := List.length_pos.mpr hC
  have hcard : ((correctOptionIds q).toFinset.card : ℚ) =
      ((correctOptionIds q).length : ℚ) := by
    rw [List.toFinset_card_of_nodup hCd]
  have hinter : (S.filter fun a => decide (a ∈ correctOptionIds q)).toFinset =
      S.toFinset ∩ (correctOptionIds q).toFinset := by
    ext x
    simp [List.mem_filter]
  have hsdiff : (S.filter fun a => decide (a ∉ correctOptionIds q)).toFinset =
      S.toFinset \ (correctOptionIds q).toFinset := by
    ext x
    simp [List.mem_filter]
  have hcs : ((S.toFinset ∩ (correctOptionIds q).toFinset).card : ℚ) =
      ((S.filter fun a => decide (a ∈ correctOptionIds q)).length : ℚ) := by
    rw [← hinter, List.toFinset_card_of_nodup (hS.filter _)]
  have his : ((S.toFinset \ (correctOptionIds q).toFinset).card : ℚ) =
      ((S.filter fun a => decide (a ∉ correctOptionIds q)).length : ℚ) := by
    rw [← hsdiff, List.toFinset_card_of_nodup (hS.filter _)]
  have hscore : scoreQuestion q S =
      (mathMax 0 (rawPoints q S), decide (mathMax 0 (rawPoints q S) ≥ 1 / 2)) := by
    unfold scoreQuestion
    rw [hty]
    simp only [if_pos hlen]
  rw [hscore]
  constructor
  · rw [mathMax_eq_max, hcard, hcs, his]
    rfl
  · simp [decide_eq_true_eq]

/-- Witness for C1: the sample multiple-choice question (correct set
`{a, c}`) with submission `{a, b}` earns `max 0 ((1/2) * (1 - 1)) = 0`
and is marked incorrect. -/
theorem multiple_choice_partial_credit_witness :
    sampleMC.type = QuestionType.multiple_choice ∧
    correctOptionIds sampleMC ≠ [] ∧
    (correctOptionIds sampleMC).Nodup ∧
    (["a", "b"] : List String).Nodup ∧
    (scoreQuestion sampleMC ["a", "b"]).1 =
      max 0 ((1 / (((correctOptionIds sampleMC).toFinset.card : ℚ))) *
        (((["a", "b"] : List String).toFinset ∩ (correctOptionIds sampleMC).toFinset).card -
          (((["a", "b"] : List String).toFinset \ (correctOptionIds sampleMC).toFinset).card : ℚ))) := by
  refine ⟨by decide, by decide, by decide, by decide, ?_⟩
  exact (multiple_choice_partial_credit sampleMC ["a", "b"] (by decide) (by decide)
    (by decide) (by decide)).1

/-! ### C5 -/

/-- Claim C5: for a single-choice or true/false question whose unique
correct option is `c`, scoring awards `(1, true)` exactly on the
submission `[c]` and `(0, false)` on every other submission, including
the empty one. -/
theorem single_choice_all_or_nothing (q : Question) (ua : List String) (c : String)
    (hty : q.type = QuestionType.single_choice ∨ q.type = QuestionType.true_false)
    (hc : correctOptionIds q = [c]) :
    scoreQuestion q ua = if ua = [c] then ((1 : ℚ), true) else ((0 : ℚ), false) := by
  have hbranch : scoreQuestion q ua =
      (match ua with
        | [a] => if a ∈ correctOptionIds q then ((1 : ℚ), true) else ((0 : ℚ), false)
        | _ => ((0 : ℚ), false)) := by
    unfold scoreQuestion
    rcases hty with h | h <;> rw [h]
  rw [hbranch, hc]
  cases ua with
  | nil => simp
  | cons a t =>
      cases t with
      | nil =>
          by_cases hac : a = c
          · simp [hac]
          · simp [hac]
      | cons b s => simp

/-- Witness for C5: the sample single-choice question (unique correct
option `a`) scores `(1, true)` on `[a]`, `(0, false)` on `[b]` and
`(0, false)` on the empty submission. -/
theorem single_choice_all_or_nothing_witness :
    (sampleSC.type = QuestionType.single_choice ∨
      sampleSC.type = QuestionType.true_false) ∧
    correctOptionIds sampleSC = ["a"] ∧
    scoreQuestion sampleSC ["a"] = ((1 : ℚ), true) ∧
    scoreQuestion sampleSC ["b"] = ((0 : ℚ), false) ∧
    scoreQuestion sampleSC [] = ((0 : ℚ), false) := by
  have h1 := single_choice_all_or_nothing sampleSC ["a"] "a" (Or.inl (by decide)) (by decide)
  have h2 := single_choice_all_or_nothing sampleSC ["b"] "a" (Or.inl (by decide)) (by decide)
  have h3 := single_choice_all_or_nothing sampleSC [] "a" (Or.inl (by decide)) (by decide)
  refine ⟨Or.inl (by decide), by decide, ?_, ?_, ?_⟩
  · rw [h1]
    simp
  · rw [h2]
    simp
  · rw [h3]
    simp

/-! ### Branch characterizations of the scoring function -/

/-- The single-choice / true-false branch of `calculateResults`. -/
theorem scoreQuestion_single_eq (q : Question) (ua : List String)
    (hty : q.type = QuestionType.single_choice ∨ q.type = QuestionType.true_false) :
    scoreQuestion q ua =
      (match ua with
        | [a] => if a ∈ correctOptionIds q then ((1 : ℚ), true) else ((0 : ℚ), false)
        | _ => ((0 : ℚ), false)) := by
  unfold scoreQuestion
  rcases hty with h | h <;> rw [h]

/-- The multiple-choice branch of `calculateResults`. -/
theorem scoreQuestion_mc_eq (q : Question) (ua : List String)
    (hty : q.type = QuestionType.multiple_choice) :
    scoreQuestion q ua =
      if 0 < (correctOptionIds q).length then
        (mathMax 0 (rawPoints q ua), decide (mathMax 0 (rawPoints q ua) ≥ 1 / 2))
      else ((0 : ℚ), false) := by
  unfold scoreQuestion
  rw [hty]

/-- The fall-through branch: a `matching` question earns nothing. -/
theorem scoreQuestion_matching_eq (q : Question) (ua : List String)
    (hty : q.type = QuestionType.matching) :
    scoreQuestion q ua = ((0 : ℚ), false) := by
  unfold scoreQuestion
  rw [hty]

/-- Summing the constant 1 over a list counts its length. -/
theorem sum_map_one {α : Type} : ∀ (l : List α), (l.map fun _ => (1 : ℚ)).sum = l.length
  | [] => rfl
  | a :: t => by
      simp only [List.map_cons, List.sum_cons, sum_map_one t, List.length_cons]
      push_cast
      ring

/-- With a duplicate-free submission, every question earns between 0 and
its 1.0 possible points. -/
theorem scoreQuestion_bounds (q : Question) (ua : List String) (h : ua.Nodup) :
    0 ≤ (scoreQuestion q ua).1 ∧ (scoreQuestion q ua).1 ≤ 1 := by
  rcases hqt : q.type with _ | _ | _ | _
  case single_choice | true_false =>
    first
      | rw [scoreQuestion_single_eq q ua (Or.inl hqt)]
      | rw [scoreQuestion_single_eq q ua (Or.inr hqt)]
    cases ua with
    | nil => norm_num
    | cons a t =>
        cases t with
        | nil =>
            by_cases hm : a ∈ correctOptionIds q <;> simp [hm]
        | cons b s => norm_num
  case matching =>
    rw [scoreQuestion_matching_eq q ua hqt]
    norm_num
  case multiple_choice =>
    rw [scoreQuestion_mc_eq q ua hqt]
    split
    · next hlen =>
        have hnonneg : (0 : ℚ) ≤ mathMax 0 (rawPoints q ua) := by
          rw [mathMax_eq_max]
          exact le_max_left 0 _
        have hcs_le : (ua.filter fun a => decide (a ∈ correctOptionIds q)).length ≤
            (correctOptionIds q).length := by
          have hsub : (ua.filter fun a => decide (a ∈ correctOptionIds q)) ⊆
              correctOptionIds q := fun a ha => of_decide_eq_true (List.mem_filter.mp ha).2
          exact (List.subperm_of_subset (h.filter _) hsub).length_le
        have hraw : rawPoints q ua ≤ 1 := by
          unfold rawPoints
          have h2 : ((ua.filter fun a => decide (a ∈ correctOptionIds q)).length : ℚ) ≤
              ((correctOptionIds q).length : ℚ) := by exact_mod_cast hcs_le
          have h3 : (0 : ℚ) ≤ ((ua.filter fun a => decide (a ∉ correctOptionIds q)).length : ℚ) :=
            Nat.cast_nonneg _
          have h1 : (((ua.filter fun a => decide (a ∈ correctOptionIds q)).length : ℚ) -
              ((ua.filter fun a => decide (a ∉ correctOptionIds q)).length : ℚ)) ≤
              ((correctOptionIds q).length : ℚ) := by linarith
          have hL : (0 : ℚ) < ((correctOptionIds q).length : ℚ) := by exact_mod_cast hlen
          have h4 : (1 / ((correctOptionIds q).length : ℚ)) *
              (((ua.filter fun a => decide (a ∈ correctOptionIds q)).length : ℚ) -
                ((ua.filter fun a => decide (a ∉ correctOptionIds q)).length : ℚ)) ≤
              (1 / ((correctOptionIds q).length : ℚ)) * ((correctOptionIds q).length : ℚ) :=
            mul_le_mul_of_nonneg_left h1 (by positivity)
          have h5 : (1 / ((correctOptionIds q).length : ℚ)) *
              ((correctOptionIds q).length : ℚ) = 1 := by
            field_simp
          linarith
        refine ⟨hnonneg, ?_⟩
        rw [mathMax_eq_max]
        exact max_le (by norm_num) hraw
    · norm_num

/-- Every question contributes exactly 1.0 to `pointsPossible`. -/
theorem calculateResults_pointsPossible (questions : List Question) (answers : Answers) :
    (calculateResults questions answers).pointsPossible = (questions.length : ℚ) := by
  have : ((questions.map (questionResult answers)).map fun r => r.pointsPossible) =
      questions.map fun _ => (1 : ℚ) := by
    rw [List.map_map]
    rfl
  unfold calculateResults
  simp only [this, sum_map_one]

/-- With duplicate-free submissions, the earned total is at most one
point per question. -/
theorem calculateResults_pointsEarned_le (questions : List Question) (answers : Answers)
    (hnd : ∀ q ∈ questions, (toUserAnswer (answers.lookup q.id)).Nodup) :
    (calculateResults questions answers).pointsEarned ≤ (questions.length : ℚ) := by
  unfold calculateResults
  simp only [List.map_map]
  have hle : ∀ q ∈ questions,
      ((fun r => r.pointsEarned) ∘ questionResult answers) q ≤ (fun _ => (1 : ℚ)) q := by
    intro q hq
    exact (scoreQuestion_bounds q _ (hnd q hq)).2
  calc (questions.map ((fun r => r.pointsEarned) ∘ questionResult answers)).sum
      ≤ (questions.map fun _ => (1 : ℚ)).sum := List.sum_le_sum hle
    _ = (questions.length : ℚ) := sum_map_one questions

/-! ### C10 -/

/-- Claim C10 (amended): a `matching` question always scores `(0, false)`
while still counting 1.0 possible points; consequently, provided every
submitted answer list is duplicate-free, a quiz containing such a
question can never reach a score of 100. (With duplicated option ids in
a multiple-choice submission the code can reach 100 even so — see the
counterexample.) -/
theorem matching_scores_zero_blocks_perfect (questions : List Question)
    (answers : Answers) (q0 : Question) (hmem : q0 ∈ questions)
    (hty : q0.type = QuestionType.matching)
    (hnd : ∀ q ∈ questions, (toUserAnswer (answers.lookup q.id)).Nodup) :
    (∀ ua : List String, scoreQuestion q0 ua = ((0 : ℚ), false)) ∧
    (questionResult answers q0).pointsPossible = 1 ∧
    (calculateResults questions answers).pointsPossible = (questions.length : ℚ) ∧
    (calculateResults questions answers).pointsEarned ≤ (questions.length : ℚ) - 1 ∧
    scorePercentageOf (calculateResults questions answers).pointsEarned
      (calculateResults questions answers).pointsPossible < 100 := by
  have hzero : ∀ ua : List String, scoreQuestion q0 ua = ((0 : ℚ), false) :=
    fun ua => scoreQuestion_matching_eq q0 ua hty
  have hpe_le : (calculateResults questions answers).pointsEarned ≤
      (questions.length : ℚ) - 1 := by
    obtain ⟨s, t, hst⟩ := List.append_of_mem hmem
    subst hst
    have hq0 : (questionResult answers q0).pointsEarned = 0 := by
      unfold questionResult
      simp only [hzero]
    have hS : (calculateResults s answers).pointsEarned ≤ (s.length : ℚ) :=
      calculateResults_pointsEarned_le s answers fun q hq =>
        hnd q (List.mem_append_left _ hq)
    have hT : (calculateResults t answers).pointsEarned ≤ (t.length : ℚ) :=
      calculateResults_pointsEarned_le t answers fun q hq =>
        hnd q (List.mem_append_right _ (List.mem_cons_of_mem _ hq))
    unfold calculateResults at hS hT ⊢
    simp only [List.map_append, List.sum_append, List.map_cons, List.sum_cons,
      List.map_map] at hS hT ⊢
    rw [hq0]
    have hlen : ((s ++ q0 :: t).length : ℚ) = (s.length : ℚ) + (t.length : ℚ) + 1 := by
      push_cast [List.length_append, List.length_cons]
      ring
    rw [hlen]
    linarith
  refine ⟨hzero, rfl, calculateResults_pointsPossible questions answers, hpe_le, ?_⟩
  have hn : (0 : ℚ) < (questions.length : ℚ) := by
    have : 0 < questions.length := List.length_pos.mpr (List.ne_nil_of_mem hmem)
    exact_mod_cast this
  rw [calculateResults_pointsPossible questions answers]
  unfold scorePercentageOf
  rw [if_pos hn]
  have hlt : (calculateResults questions answers).pointsEarned /
      (questions.length : ℚ) < 1 :=
    (div_lt_one hn).mpr (by linarith)
  nlinarith [hlt]

/-- Witness for C10 (amended) at the concrete quiz holding a matching
question: its possible points equal the question count and the score
stays below 100 for the empty (duplicate-free) submission. -/
theorem matching_scores_zero_blocks_perfect_witness :
    sampleMatching ∈ sampleQuizMatching.questions ∧
    sampleMatching.type = QuestionType.matching ∧
    (calculateResults sampleQuizMatching.questions ([] : Answers)).pointsPossible =
      (sampleQuizMatching.questions.length : ℚ) ∧
    scorePercentageOf
      (calculateResults sampleQuizMatching.questions ([] : Answers)).pointsEarned
      (calculateResults sampleQuizMatching.questions ([] : Answers)).pointsPossible
      < 100 := by
  have h := matching_scores_zero_blocks_perfect sampleQuizMatching.questions
    ([] : Answers) sampleMatching (by decide) (by decide) (by decide)
  exact ⟨by decide, by decide, h.2.2.1, h.2.2.2.2⟩

/-- Counterexample to C10 as stated: submitting the single correct
option of `sampleMCone` twice makes `calculateResults` count it twice,
so the quiz containing the matching question still reaches a score of
exactly 100. -/
theorem matching_perfect_score_counterexample :
    sampleMatching ∈ sampleQuizMatching.questions ∧
    sampleMatching.type = QuestionType.matching ∧
    scorePercentageOf (calculateResults sampleQuizMatching.questions
        [(("q4" : String), Sum.inr ["a", "a"])]).pointsEarned
      (calculateResults sampleQuizMatching.questions
        [(("q4" : String), Sum.inr ["a", "a"])]).pointsPossible = 100 := by
  refine ⟨by decide, by decide, ?_⟩
  norm_num [scorePercentageOf, calculateResults, questionResult, scoreQuestion,
    rawPoints, mathMax, correctOptionIds, toUserAnswer, sampleQuizMatching,
    sampleMatching, sampleMCone, sampleOptA, sampleOptB, List.lookup]

/-! ### C7 -/

/-- The status guard at the top of `submitQuizAttempt`: a non-in-progress
attempt is rejected untouched. -/
theorem submit_invalidState_guard (b : Attempt) (qb : Quiz) (ansb : Answers)
    (nb tb : Nat) (hb : b.status ≠ AttemptStatus.in_progress) :
    submitQuizAttempt b qb ansb nb tb = (b, Except.error SubmitError.invalidState) := by
  unfold submitQuizAttempt
  rw [if_pos hb]

/-- Claim C7: a submit on an attempt that is not in progress fails with
the invalid-state error and leaves the attempt untouched (so it is never
scored); in particular, after a successful submit, a second submit on
the resulting attempt fails with the invalid-state error. -/
theorem submit_never_scores_twice (a : Attempt) (q : Quiz) (ans : Answers) (now t : Nat)
    (hok : ∃ r, (submitQuizAttempt a q ans now t).2 = Except.ok r)
    (q2 : Quiz) (ans2 : Answers) (now2 t2 : Nat) :
    submitQuizAttempt (submitQuizAttempt a q ans now t).1 q2 ans2 now2 t2 =
      ((submitQuizAttempt a q ans now t).1, Except.error SubmitError.invalidState) ∧
    (∀ (b : Attempt) (qb : Quiz) (ansb : Answers) (nb tb : Nat),
      b.status ≠ AttemptStatus.in_progress →
        submitQuizAttempt b qb ansb nb tb = (b, Except.error SubmitError.invalidState)) := by
  have hstat : (submitQuizAttempt a q ans now t).1.status = AttemptStatus.completed := by
    obtain ⟨r, hr⟩ := hok
    by_cases h1 : a.status ≠ AttemptStatus.in_progress
    · exfalso
      unfold submitQuizAttempt at hr
      rw [if_pos h1] at hr
      simp at hr
    · by_cases h2 : deadlinePassed a.expiresAt now = true
      · exfalso
        unfold submitQuizAttempt at hr
        rw [if_neg h1, if_pos h2] at hr
        simp at hr
      · unfold submitQuizAttempt
        rw [if_neg h1, if_neg h2]
  refine ⟨?_, fun b qb ansb nb tb hb => submit_invalidState_guard b qb ansb nb tb hb⟩
  refine submit_invalidState_guard _ q2 ans2 now2 t2 ?_
  intro hc
  rw [hstat] at hc
  exact AttemptStatus.noConfusion hc

/-- Witness for C7: submitting the sample in-progress attempt before its
deadline succeeds, and resubmitting the stored attempt fails with the
invalid-state error. -/
theorem submit_never_scores_twice_witness :
    (∃ r, (submitQuizAttempt sampleAttempt sampleQuiz ([] : Answers) 10 10).2 = Except.ok r) ∧
    submitQuizAttempt (submitQuizAttempt sampleAttempt sampleQuiz ([] : Answers) 10 10).1
        sampleQuiz ([] : Answers) 20 20 =
      ((submitQuizAttempt sampleAttempt sampleQuiz ([] : Answers) 10 10).1,
        Except.error SubmitError.invalidState) := by
  have hok : ∃ r, (submitQuizAttempt sampleAttempt sampleQuiz ([] : Answers) 10 10).2 =
      Except.ok r := ⟨_, rfl⟩
  exact ⟨hok,
    (submit_never_scores_twice sampleAttempt sampleQuiz ([] : Answers) 10 10 hok
      sampleQuiz ([] : Answers) 20 20).1⟩

/-! ### C2 and C4 -/

/-- The expiry branch of `submitQuizAttempt`: an in-progress attempt
whose deadline has passed is updated to `expired` and the submission is
rejected with the deadline error — no scoring happens. -/
theorem submit_deadline_branch (a : Attempt) (q : Quiz) (ans : Answers)
    (now t e : Nat) (hst : a.status = AttemptStatus.in_progress)
    (hex : a.expiresAt = some e) (hlate : e < now) :
    submitQuizAttempt a q ans now t =
      ({ a with status := AttemptStatus.expired },
        Except.error SubmitError.deadlineExceeded) := by
  unfold submitQuizAttempt
  rw [if_neg (by simp [hst])]
  rw [if_pos (by simp [deadlinePassed, hex, hlate])]

/-- Claim C2 (amended): a submission that arrives after `expiresAt` is
not graded — `submitQuizAttempt` stores `status = expired` and throws
the deadline error, so no `QuizResult` is produced and the attempt ends
`expired`, not `completed`. -/
theorem late_submission_marked_expired (a : Attempt) (q : Quiz) (ans : Answers)
    (now t e : Nat) (hst : a.status = AttemptStatus.in_progress)
    (hex : a.expiresAt = some e) (hlate : e < now) :
    submitQuizAttempt a q ans now t =
      ({ a with status := AttemptStatus.expired },
        Except.error SubmitError.deadlineExceeded) :=
  submit_deadline_branch a q ans now t e hst hex hlate

/-- Witness for C2 (amended): the sample attempt with deadline 60,
submitted at 61, is marked expired and rejected. -/
theorem late_submission_marked_expired_witness :
    sampleAttempt.status = AttemptStatus.in_progress ∧
    sampleAttempt.expiresAt = some 60 ∧ 60 < 61 ∧
    submitQuizAttempt sampleAttempt sampleQuiz ([] : Answers) 61 61 =
      ({ sampleAttempt with status := AttemptStatus.expired },
        Except.error SubmitError.deadlineExceeded) :=
  ⟨rfl, rfl, by decide,
    late_submission_marked_expired sampleAttempt sampleQuiz ([] : Answers) 61 61 60
      rfl rfl (by decide)⟩

/-- Counterexample to C2 as stated: submitting the sample in-progress
attempt one second after its deadline yields an error (no `QuizResult`)
and leaves the stored status `expired`, not `completed`. -/
theorem late_submission_rejected_counterexample :
    sampleAttempt.status = AttemptStatus.in_progress ∧
    sampleAttempt.expiresAt = some 60 ∧ 60 < 61 ∧
    (submitQuizAttempt sampleAttempt sampleQuiz ([] : Answers) 61 61).2 =
      Except.error SubmitError.deadlineExceeded ∧
    (submitQuizAttempt sampleAttempt sampleQuiz ([] : Answers) 61 61).1.status =
      AttemptStatus.expired := by
  have h := submit_deadline_branch sampleAttempt sampleQuiz ([] : Answers) 61 61 60
    rfl rfl (by decide)
  refine ⟨rfl, rfl, by decide, ?_, ?_⟩
  · rw [h]
  · rw [h]

/-- Counterexample to C4 as stated: the expiry check is a failure path
that does modify the stored attempt — the submission errors out, yet the
attempt row is no longer the original one. -/
theorem failed_submit_mutates_attempt_counterexample :
    (submitQuizAttempt sampleAttempt sampleQuiz ([] : Answers) 61 61).2 =
      Except.error SubmitError.deadlineExceeded ∧
    (submitQuizAttempt sampleAttempt sampleQuiz ([] : Answers) 61 61).1 ≠
      sampleAttempt := by
  have h := submit_deadline_branch sampleAttempt sampleQuiz ([] : Answers) 61 61 60
    rfl rfl (by decide)
  refine ⟨by rw [h], ?_⟩
  rw [h]
  decide

/-- Claim C4 (amended): every failing `submitQuizAttempt` leaves the
stored attempt unmodified, except the expiry check, which persists
`status = expired` before throwing. -/
theorem submit_error_paths (a : Attempt) (q : Quiz) (ans : Answers) (now t : Nat)
    (a1 : Attempt) (err : SubmitError)
    (h : submitQuizAttempt a q ans now t = (a1, Except.error err)) :
    (err = SubmitError.invalidState ∧ a1 = a) ∨
    (err = SubmitError.deadlineExceeded ∧
      a1 = { a with status := AttemptStatus.expired }) := by
  unfold submitQuizAttempt at h
  by_cases h1 : a.status ≠ AttemptStatus.in_progress
  · rw [if_pos h1] at h
    left
    obtain ⟨ha, he⟩ := Prod.mk.injEq .. ▸ h
    exact ⟨(Except.error.inj he.symm).symm ▸ rfl, ha.symm⟩
  · by_cases h2 : deadlinePassed a.expiresAt now = true
    · rw [if_neg h1, if_pos h2] at h
      right
      obtain ⟨ha, he⟩ := Prod.mk.injEq .. ▸ h
      exact ⟨(Except.error.inj he.symm).symm ▸ rfl, ha.symm⟩
    · rw [if_neg h1, if_neg h2] at h
      exfalso
      have he := congrArg Prod.snd h
      simp at he

/-- Witness for C4 (amended): a submit on an already-completed attempt
fails with the invalid-state error and leaves the row untouched. -/
theorem submit_error_paths_witness :
    submitQuizAttempt sampleCompletedAttempt sampleQuiz ([] : Answers) 0 0 =
      (sampleCompletedAttempt, Except.error SubmitError.invalidState) ∧
    ((SubmitError.invalidState = SubmitError.invalidState ∧
        sampleCompletedAttempt = sampleCompletedAttempt) ∨
      (SubmitError.invalidState = SubmitError.deadlineExceeded ∧
        sampleCompletedAttempt =
          { sampleCompletedAttempt with status := AttemptStatus.expired })) := by
  have hrun : submitQuizAttempt sampleCompletedAttempt sampleQuiz ([] : Answers) 0 0 =
      (sampleCompletedAttempt, Except.error SubmitError.invalidState) := rfl
  exact ⟨hrun,
    submit_error_paths sampleCompletedAttempt sampleQuiz ([] : Answers) 0 0
      sampleCompletedAttempt SubmitError.invalidState hrun⟩

/-! ### C6 -/

/-- Claim C6 (amended): on a successful submit, the repository computes
`scorePercent = 100 * pointsEarned / pointsPossible` with
`pointsPossible` equal to the number of questions, and
`passed = scorePercent ≥ quiz.passScore` when a pass score is set, else
`passed = false`; however, the `QuizResults` UI component applies a
hardcoded 70 default whenever `quiz.passScore` is absent (or zero), so
a 70% threshold does exist in the code base. -/
theorem aggregate_score_and_pass (a : Attempt) (q : Quiz) (ans : Answers)
    (now t : Nat) (a1 : Attempt) (r : QuizResult)
    (h : submitQuizAttempt a q ans now t = (a1, Except.ok r)) :
    r.score = scorePercentageOf (calculateResults q.questions ans).pointsEarned
        (calculateResults q.questions ans).pointsPossible ∧
    (calculateResults q.questions ans).pointsPossible = (q.questions.length : ℚ) ∧
    r.passed = passedOf q.passScore r.score ∧
    (q.passScore = none → r.passed = false) ∧
    r.totalCount = q.questions.length ∧
    (∀ s : ℚ, quizResultsIsPassed none s = decide (s ≥ 70)) := by
  unfold submitQuizAttempt at h
  by_cases h1 : a.status ≠ AttemptStatus.in_progress
  · rw [if_pos h1] at h
    exfalso
    have he := congrArg Prod.snd h
    simp at he
  · by_cases h2 : deadlinePassed a.expiresAt now = true
    · rw [if_neg h1, if_pos h2] at h
      exfalso
      have he := congrArg Prod.snd h
      simp at he
    · rw [if_neg h1, if_neg h2] at h
      have he := congrArg Prod.snd h
      simp only at he
      have hr := Except.ok.inj he
      subst hr
      refine ⟨rfl, calculateResults_pointsPossible q.questions ans, rfl, ?_, rfl, ?_⟩
      · intro hnone
        show passedOf q.passScore _ = false
        rw [hnone]
        rfl
      · intro s
        rfl

/-- Witness for C6 (amended) on the sample quiz: a concrete successful
submit exists, possible points count the questions, and the UI default
triggers at 70. -/
theorem aggregate_score_and_pass_witness :
    (∃ a1 r, submitQuizAttempt sampleAttempt sampleQuiz ([] : Answers) 10 10 =
      (a1, Except.ok r)) ∧
    (calculateResults sampleQuiz.questions ([] : Answers)).pointsPossible =
      (sampleQuiz.questions.length : ℚ) ∧
    quizResultsIsPassed none 70 = decide ((70 : ℚ) ≥ 70) := by
  obtain ⟨a1, r, hrun⟩ : ∃ a1 r,
      submitQuizAttempt sampleAttempt sampleQuiz ([] : Answers) 10 10 =
        (a1, Except.ok r) := ⟨_, _, rfl⟩
  have h := aggregate_score_and_pass sampleAttempt sampleQuiz ([] : Answers) 10 10 a1 r hrun
  exact ⟨⟨a1, r, hrun⟩, h.2.1, h.2.2.2.2.2 70⟩

/-- Counterexample to C6 as stated: with no pass threshold configured,
the `QuizResults` component marks a score of 70 as passed (and 69 as
failed) via its hardcoded default, while the repository would report
`passed = false` — so a default 70% threshold is applied somewhere. -/
theorem default_seventy_counterexample :
    quizResultsIsPassed none 70 = true ∧
    quizResultsIsPassed none 69 = false ∧
    passedOf none 70 = false := by
  refine ⟨?_, ?_, rfl⟩
  · norm_num [quizResultsIsPassed]
  · norm_num [quizResultsIsPassed]

/-! ### C3 -/

/-- Counterexample to C3 as stated: two quizzes that differ only in
which option is marked correct (same ids, texts, types) produce
different `startQuizAttempt` responses — the client-facing view still
carries the `isCorrect` flags. -/
theorem startAttempt_leaks_answer_key_counterexample :
    (sampleQuizKeyA.questions.map fun q =>
        (q.id, q.text, q.type, q.options.map fun o => (o.id, o.text))) =
      (sampleQuizKeyB.questions.map fun q =>
        (q.id, q.text, q.type, q.options.map fun o => (o.id, o.text))) ∧
    startQuizAttemptView "at2" 0 (fun _ => 0) (fun _ _ => 0) sampleQuizKeyA ≠
      startQuizAttemptView "at2" 0 (fun _ => 0) (fun _ _ => 0) sampleQuizKeyB := by
  constructor
  · decide
  · decide

/-- Claim C3 (amended): `startQuizAttempt` does not strip the answer
key — with randomization off the response contains the quiz verbatim,
`isCorrect` flags included, and in general every option record of the
returned view (with its `isCorrect` flag) is one of the authored option
records. -/
theorem startAttempt_view_contains_answer_key (attemptId : String) (startedAt : Nat)
    (qrand : Nat → Nat) (orand : Nat → Nat → Nat) (quiz : Quiz)
    (hq : quiz.randomizeQuestions = false) (ho : quiz.randomizeOptions = false) :
    (startQuizAttemptView attemptId startedAt qrand orand quiz).quiz = quiz ∧
    (∀ (qrand2 : Nat → Nat) (orand2 : Nat → Nat → Nat),
      ∀ q' ∈ (startQuizAttemptView attemptId startedAt qrand2 orand2 quiz).quiz.questions,
        ∀ o ∈ q'.options, ∃ q ∈ quiz.questions, o ∈ q.options) := by
  constructor
  · show applyRandomization qrand orand quiz = quiz
    obtain ⟨qid, qtitle, qtl, qrq, qro, qps, qqs⟩ := quiz
    have hq' : qrq = false := hq
    have ho' : qro = false := ho
    subst hq'
    subst ho'
    rfl
  · intro qrand2 orand2 q' hq' o ho'
    obtain ⟨mid, hf, hp⟩ := applyRandomization_spec qrand2 orand2 quiz
    obtain ⟨qm, hqm, hR⟩ := forall₂_exists_right hf q' hq'
    exact ⟨qm, hp.subset hqm, (hR.2.2.2.mem_iff).mp ho'⟩

/-- Witness for C3 (amended): the non-randomized key quiz is returned
verbatim by `startQuizAttempt`, answer key included. -/
theorem startAttempt_view_contains_answer_key_witness :
    sampleQuizKeyA.randomizeQuestions = false ∧
    sampleQuizKeyA.randomizeOptions = false ∧
    (startQuizAttemptView "at2" 0 (fun _ => 0) (fun _ _ => 0) sampleQuizKeyA).quiz =
      sampleQuizKeyA :=
  ⟨rfl, rfl,
    (startAttempt_view_contains_answer_key "at2" 0 (fun _ => 0) (fun _ _ => 0)
      sampleQuizKeyA rfl rfl).1⟩

/-! ### C8 -/

/-- Counterexample to C8 as stated: an option id that belongs to no
option of the question does reduce the points awarded — adding the
unknown id `x` to the correct submission `[a]` drops the multiple-choice
score from 1 to 0. -/
theorem unknown_option_reduces_points_counterexample :
    ("x" : String) ∉ correctOptionIds sampleMCone ∧
    (∀ o ∈ sampleMCone.options, o.id ≠ "x") ∧
    (scoreQuestion sampleMCone ["a"]).1 = 1 ∧
    (scoreQuestion sampleMCone ["a", "x"]).1 = 0 := by
  refine ⟨by decide, by decide, ?_, ?_⟩ <;>
    simp [scoreQuestion, rawPoints, mathMax, correctOptionIds, sampleMCone,
      sampleOptA, sampleOptB, List.filter_cons, List.filter_nil]

/-- Claim C8 (amended): scoring is total — answer entries whose
question id does not occur in the quiz are ignored (results depend only
on the lookups at the quiz's question ids) — and submitted option ids
that do not belong to the question are not rejected, but in a
multiple-choice question each one counts as an incorrect selection,
lowering the raw points by `1/|C|` (the final score being floored at
0). -/
theorem scoring_total_unknown_ids (questions : List Question) (ans1 ans2 : Answers)
    (hagree : ∀ q ∈ questions, ans1.lookup q.id = ans2.lookup q.id) :
    calculateResults questions ans1 = calculateResults questions ans2 ∧
    (∀ (q : Question) (ua : List String) (x : String),
      q.type = QuestionType.multiple_choice → x ∉ correctOptionIds q →
        rawPoints q (ua ++ [x]) =
          rawPoints q ua - 1 / ((correctOptionIds q).length : ℚ)) := by
  constructor
  · have hmap : questions.map (questionResult ans1) =
        questions.map (questionResult ans2) := by
      apply List.map_congr_left
      intro q hq
      unfold questionResult
      rw [hagree q hq]
    unfold calculateResults
    rw [hmap]
  · intro q ua x hty hx
    unfold rawPoints
    have hfin : (List.filter (fun a => decide (a ∈ correctOptionIds q)) (ua ++ [x])) =
        List.filter (fun a => decide (a ∈ correctOptionIds q)) ua := by
      rw [List.filter_append]
      simp [hx]
    have hfout : (List.filter (fun a => decide (a ∉ correctOptionIds q)) (ua ++ [x])) =
        List.filter (fun a => decide (a ∉ correctOptionIds q)) ua ++ [x] := by
      rw [List.filter_append]
      simp [hx]
    rw [hfin, hfout]
    simp only [List.length_append, List.length_cons, List.length_nil]
    push_cast
    ring

/-- Witness for C8 (amended): an answer map whose only entry names an
unknown question id scores like the empty map, and appending the
unknown option id `x` to `[a]` lowers the raw points of `sampleMCone`
by `1/1`. -/
theorem scoring_total_unknown_ids_witness :
    (∀ q ∈ [sampleSC], (([(("zz" : String), Sum.inl ("a" : String))] : Answers).lookup q.id) =
      (([] : Answers).lookup q.id)) ∧
    calculateResults [sampleSC] [(("zz" : String), Sum.inl ("a" : String))] =
      calculateResults [sampleSC] ([] : Answers) ∧
    rawPoints sampleMCone (["a"] ++ ["x"]) =
      rawPoints sampleMCone ["a"] - 1 / ((correctOptionIds sampleMCone).length : ℚ) := by
  have h := scoring_total_unknown_ids [sampleSC]
    [(("zz" : String), Sum.inl ("a" : String))] ([] : Answers) (by decide)
  exact ⟨by decide, h.1, h.2 sampleMCone ["a"] "x" (by decide) (by decide)⟩

end MedCQ
